import Mathlib

/-!
Verification development for the tempoxyz/lints repository.

The repository ships three Rust lint-rule test fixtures
(src/test-fixtures/rust/with-unwrap.rs, with-dbg.rs, mixed.rs).  Those
files are embedded below verbatim as lists of text lines.  The rule-based
static-analysis engine that the specification describes (pattern matchers,
rules, registry, scanner, violations) is not among the supplied source
files, so it is modelled from the specification; every such definition
carries a doc comment starting with "Modelled from the spec:".
-/

set_option maxRecDepth 100000

namespace Lints

/-! ## Fixture files, embedded verbatim.

Each fixture is the list of its text lines: the file's bytes split on
the newline character, a final unterminated line counting as a line and
a final empty line (bytes ending in two newlines) likewise.  Under this
convention with-unwrap.rs has 14 lines (its last line has no trailing
newline), with-dbg.rs has 13 and mixed.rs has 15 (each of those two ends
in a blank line).  Literal braces are written with the escapes \x7b and
\x7d. -/

/-- Lines of src/test-fixtures/rust/with-unwrap.rs. -/
def with_unwrap_rs : List String :=
  [ "// This file contains .unwrap() calls which should be flagged in library code"
  , ""
  , "pub fn parse_number(s: &str) -> i32 \x7b"
  , "    s.parse::<i32>().unwrap()  // Should be caught by no-unwrap-in-lib"
  , "\x7d"
  , ""
  , "pub fn get_first<T>(vec: Vec<T>) -> T \x7b"
  , "    vec.into_iter().next().unwrap()  // Another unwrap to catch"
  , "\x7d"
  , ""
  , "fn main() \x7b"
  , "    let result = parse_number(\"42\");"
  , "    println!(\"\x7b\x7d\", result);"
  , "\x7d" ]

/-- Lines of src/test-fixtures/rust/with-dbg.rs. -/
def with_dbg_rs : List String :=
  [ "// This file contains dbg!() macro which should be flagged"
  , ""
  , "fn calculate(x: i32, y: i32) -> i32 \x7b"
  , "    let result = x + y;"
  , "    dbg!(result);  // This should be caught by no-dbg-macro rule"
  , "    result"
  , "\x7d"
  , ""
  , "fn main() \x7b"
  , "    let value = 42;"
  , "    dbg!(value);  // Another dbg! to catch"
  , "\x7d"
  , "" ]

/-- Lines of src/test-fixtures/rust/mixed.rs. -/
def mixed_rs : List String :=
  [ "// This file contains multiple types of violations"
  , ""
  , "pub fn process_data(input: Option<String>) -> String \x7b"
  , "    let data = input.unwrap();  // no-unwrap-in-lib violation"
  , ""
  , "    dbg!(&data);  // no-dbg-macro violation"
  , ""
  , "    data.to_uppercase()"
  , "\x7d"
  , ""
  , "pub fn debug_value(x: i32) \x7b"
  , "    dbg!(x);  // Another dbg! violation"
  , "    println!(\"Value: \x7b\x7d\", x);"
  , "\x7d"
  , "" ]

/-- The first list is a prefix of the second. -/
def listLeads : List Char → List Char → Bool
  | [], _ => true
  | _ :: _, [] => false
  | a :: as, b :: bs => a == b && listLeads as bs

/-- The pattern occurs as a contiguous run somewhere in the list. -/
def listOccurs (pat : List Char) : List Char → Bool
  | [] => listLeads pat []
  | c :: rest => listLeads pat (c :: rest) || listOccurs pat rest

/-- Number of positions of the list at which the pattern starts. -/
def listCountOccurs (pat : List Char) : List Char → Nat
  | [] => 0
  | c :: rest =>
      (if listLeads pat (c :: rest) then 1 else 0) + listCountOccurs pat rest

/-- The pattern `pat` occurs as a substring of the line `l`. -/
def occursOn (pat l : String) : Bool :=
  listOccurs pat.data l.data

/-- Number of occurrences of the pattern `pat` in the line `l`. -/
def countOccurs (pat l : String) : Nat :=
  listCountOccurs pat.data l.data

/-- Some line of the file invokes the debug-printing macro: it contains
the text "dbg!(". -/
def hasDbgInvocation (lines : List String) : Bool :=
  lines.any (occursOn "dbg!(")

/-- Some line of the file contains a zero-argument ".unwrap()" call
lexically inside a public function: a line starting with "pub fn " occurs
strictly before it, with no closing brace alone on a line in between. -/
def hasUnwrapInsidePubFn (lines : List String) : Bool :=
  (List.range lines.length).any fun i =>
    (listLeads "pub fn ".data (lines.getD i "").data) &&
    ((List.range lines.length).any fun j =>
      decide (i < j) && occursOn ".unwrap()" (lines.getD j "") &&
      ((List.range lines.length).all fun m =>
        !(decide (i < m) && decide (m < j) && (lines.getD m "" == "\x7d"))))

/-! ## The rule-based static-analysis engine.

The engine is described by the specification but its code is not among
the supplied source files; everything below is modelled from the spec
(sections 2-4, 6-7). -/

/-- Modelled from the spec: the node-kind enumeration of a SyntaxNode
("node kind (enum: Call, MacroInvocation, FunctionDef, Module, ...)"). -/
inductive NodeKind where
  | Call
  | MacroInvocation
  | FunctionDef
  | Module
  | Other
deriving DecidableEq

/-- Modelled from the spec: a source span, start/end line-column
positions (lines and columns 1-based, end column inclusive). -/
structure Span where
  startLine : Nat
  startCol : Nat
  endLine : Nat
  endCol : Nat
deriving DecidableEq

/-- The first span covers the second: it starts no later than the
second starts and ends no earlier than the second ends. -/
def spanCovers (s t : Span) : Bool :=
  (decide (s.startLine < t.startLine) ||
    (s.startLine == t.startLine && decide (s.startCol ≤ t.startCol))) &&
  (decide (t.endLine < s.endLine) ||
    (t.endLine == s.endLine && decide (t.endCol ≤ s.endCol)))

/-- Modelled from the spec: the target-kind classification of a file,
"target kind (Library | Binary | Test)". -/
inductive TargetKind where
  | Library
  | Binary
  | Test
deriving DecidableEq

/-- Modelled from the spec: a rule's applicability scope,
"enum: \x7bAnyFile, LibraryTargetOnly, BinaryTargetOnly\x7d". -/
inductive Scope where
  | AnyFile
  | LibraryTargetOnly
  | BinaryTargetOnly
deriving DecidableEq

/-- Modelled from the spec: severity "enum: Warning, Error". -/
inductive Severity where
  | Warning
  | Error
deriving DecidableEq

/-- Modelled from the spec: the per-node attributes of a SyntaxNode:
node kind, span, and the name and argument count that the two concrete
matcher policies inspect (the callee name and argument count of a Call,
the macro name and argument count of a MacroInvocation; for other kinds
the name is the declared name or empty and the count is 0). -/
structure NodeInfo where
  kind : NodeKind
  span : Span
  name : String
  argCount : Nat
deriving DecidableEq

mutual

/-- Modelled from the spec: a SyntaxNode, its attributes plus its
ordered sequence of children. -/
inductive SNode where
  | node : NodeInfo → SForest → SNode

/-- An ordered sequence of sibling syntax nodes. -/
inductive SForest where
  | nil : SForest
  | cons : SNode → SForest → SForest

end

/-- The attributes of a node's root. -/
def SNode.info : SNode → NodeInfo
  | .node i _ => i

/-- Modelled from the spec: the two concrete matcher policies required
by the fixture evidence, "model Rule as a tagged variant":
MethodCallMatcher (configured method name and argument count) and
MacroInvocationMatcher (configured macro name, regardless of
arguments). -/
inductive Matcher where
  | methodCall : String → Nat → Matcher
  | macroInv : String → Matcher
deriving DecidableEq

/-- Modelled from the spec: `matches(node, context) -> bool`, a pure
function of the node.  MethodCallMatcher matches a Call node whose
callee resolves by name to the configured method name with the
configured argument count; MacroInvocationMatcher matches a
MacroInvocation node whose macro name equals the configured name,
regardless of arguments. -/
def Matcher.matches : Matcher → SNode → Bool
  | .methodCall m a, n =>
      n.info.kind == .Call && n.info.name == m && n.info.argCount == a
  | .macroInv m, n =>
      n.info.kind == .MacroInvocation && n.info.name == m

/-- Modelled from the spec: rendering the message template with
node-specific substitutions (substituting the matched method/macro
name). -/
def Matcher.renderMessage : Matcher → String → String
  | .methodCall _ _, nm => "avoid calling `." ++ nm ++ "()` in library code"
  | .macroInv _, nm => "remove debug-artifact `" ++ nm ++ "!` invocation"

/-- Modelled from the spec: a Rule: unique id, category, severity,
matcher, applicability scope; immutable after registration. -/
structure Rule where
  id : String
  category : String
  severity : Severity
  matcher : Matcher
  scope : Scope
deriving DecidableEq

/-- Modelled from the spec: the Rule Registry, an ordered collection of
Rules; registration order is preserved and is the tie-break order used
by the Scanner. -/
structure Registry where
  rules : List Rule
deriving DecidableEq

/-- Modelled from the spec: configuration errors are fatal at Registry
construction; `register` fails with DuplicateRuleId when the id is
already present. -/
inductive RegistryError where
  | DuplicateRuleId
deriving DecidableEq

/-- Modelled from the spec: `register(rule)` fails with DuplicateRuleId
when the rule's id is already present, otherwise appends the rule,
preserving registration order. -/
def Registry.register (reg : Registry) (r : Rule) :
    Except RegistryError Registry :=
  if reg.rules.any fun q => q.id == r.id then
    .error .DuplicateRuleId
  else
    .ok ⟨reg.rules ++ [r]⟩

/-- Modelled from the spec: ScanContext, the per-file state: file path
and target kind (the accumulated violations are the scan's result list
below). -/
structure ScanContext where
  path : String
  targetKind : TargetKind
deriving DecidableEq

/-- Modelled from the spec: whether an applicability scope admits a
target kind. -/
def Scope.applies : Scope → TargetKind → Bool
  | .AnyFile, _ => true
  | .LibraryTargetOnly, t => t == .Library
  | .BinaryTargetOnly, t => t == .Binary

/-- Modelled from the spec: `applicable_rules(context)`, the ordered
sequence of Rules filtered by applicability scope against
`context.target_kind`, in registration order. -/
def Registry.applicable_rules (reg : Registry) (ctx : ScanContext) :
    List Rule :=
  reg.rules.filter fun r => r.scope.applies ctx.targetKind

/-- Disabling a rule: the registry with every rule of the given id
removed (with unique ids, exactly that one rule). -/
def Registry.removeRule (reg : Registry) (rid : String) : Registry :=
  ⟨reg.rules.filter fun r => !(r.id == rid)⟩

/-- Modelled from the spec: a Violation, an immutable record of one
detected issue: rule id, severity, message, span, file path. -/
structure Violation where
  ruleId : String
  severity : Severity
  message : String
  span : Span
  path : String
deriving DecidableEq

/-- The Violation the Scanner constructs when a rule's matcher accepts
a node. -/
def mkViolation (r : Rule) (ctx : ScanContext) (i : NodeInfo) : Violation :=
  ⟨r.id, r.severity, r.matcher.renderMessage i.name, i.span, ctx.path⟩

/-- Modelled from the spec: at one node, iterate the applicable rules
in registration order, invoke each rule's matcher, and on a positive
match construct a Violation. -/
def violationsAt (rules : List Rule) (ctx : ScanContext) (n : SNode) :
    List Violation :=
  rules.filterMap fun r =>
    if r.matcher.matches n then some (mkViolation r ctx n.info) else none

mutual

/-- Modelled from the spec: the Scanner's pre-order depth-first
traversal: emit the current node's violations, then descend into the
children in order; no rule may skip subtrees or alter the traversal. -/
def scanNode (rules : List Rule) (ctx : ScanContext) : SNode → List Violation
  | .node i cs => violationsAt rules ctx (.node i cs) ++ scanForest rules ctx cs

/-- The Scanner's traversal over a sequence of sibling subtrees. -/
def scanForest (rules : List Rule) (ctx : ScanContext) : SForest → List Violation
  | .nil => []
  | .cons t ts => scanNode rules ctx t ++ scanForest rules ctx ts

end

/-- Modelled from the spec: `scan(tree, context) -> ordered sequence of
Violation`, using the registry's applicable rules. -/
def scan (tree : SNode) (ctx : ScanContext) (reg : Registry) :
    List Violation :=
  scanNode (reg.applicable_rules ctx) ctx tree

mutual

/-- The pre-order depth-first listing of the nodes of a tree: the root,
then the children's listings in order. -/
def preorderNode : SNode → List SNode
  | .node i cs => .node i cs :: preorderForest cs

/-- The pre-order listing of a sequence of sibling subtrees. -/
def preorderForest : SForest → List SNode
  | .nil => []
  | .cons t ts => preorderNode t ++ preorderForest ts

end

/-! ## Concrete rules, registries and fixture syntax trees.

The two rules are the ones the fixture comments name
(no-unwrap-in-lib, no-dbg-macro).  The trees are the syntax trees an
external parser produces for the fixture snippets; node spans are the
1-based line/column extents of the corresponding expressions in the
fixture text. -/

/-- The unwrap-like rule of the fixtures: method name "unwrap", argument
count 0, library targets only. -/
def unwrapRule : Rule :=
  ⟨"no-unwrap-in-lib", "safety", .Warning, .methodCall "unwrap" 0,
    .LibraryTargetOnly⟩

/-- The debug-macro rule of the fixtures: macro name "dbg", any file. -/
def dbgRule : Rule :=
  ⟨"no-dbg-macro", "debug-artifact", .Warning, .macroInv "dbg", .AnyFile⟩

/-- Registry holding only the unwrap-like rule. -/
def regUnwrap : Registry := ⟨[unwrapRule]⟩

/-- Registry holding both fixture rules, unwrap rule registered first. -/
def regBoth : Registry := ⟨[unwrapRule, dbgRule]⟩

/-- Scan context for with-unwrap.rs as a library target. -/
def ctxUnwrapLib : ScanContext := ⟨"with-unwrap.rs", .Library⟩

/-- Scan context for mixed.rs as a library target. -/
def ctxMixedLib : ScanContext := ⟨"mixed.rs", .Library⟩

/-- The receiver variable `s` of with-unwrap.rs line 4. -/
def sVarNode : SNode := .node ⟨.Other, ⟨4, 5, 4, 5⟩, "s", 0⟩ .nil

/-- The call `s.parse::<i32>()` of with-unwrap.rs line 4, columns
5-20. -/
def parseCallNode : SNode :=
  .node ⟨.Call, ⟨4, 5, 4, 20⟩, "parse", 0⟩ (.cons sVarNode .nil)

/-- The call `s.parse::<i32>().unwrap()` of with-unwrap.rs line 4,
columns 5-29; its trailing `.unwrap()` token run occupies columns
21-29. -/
def unwrapCallNode : SNode :=
  .node ⟨.Call, ⟨4, 5, 4, 29⟩, "unwrap", 0⟩ (.cons parseCallNode .nil)

/-- The span of the `.unwrap()` tokens themselves on with-unwrap.rs
line 4 (columns 21-29). -/
def unwrapTokenSpan : Span := ⟨4, 21, 4, 29⟩

/-- The function `parse_number` of with-unwrap.rs lines 3-5, containing
the unwrap call. -/
def parseNumberFn : SNode :=
  .node ⟨.FunctionDef, ⟨3, 1, 5, 1⟩, "parse_number", 0⟩
    (.cons unwrapCallNode .nil)

/-- `input.unwrap()` of mixed.rs line 4, columns 16-29. -/
def mixedUnwrapNode : SNode :=
  .node ⟨.Call, ⟨4, 16, 4, 29⟩, "unwrap", 0⟩
    (.cons (.node ⟨.Other, ⟨4, 16, 4, 20⟩, "input", 0⟩ .nil) .nil)

/-- `dbg!(&data)` of mixed.rs line 6, columns 5-15, one argument. -/
def mixedDbgNode1 : SNode :=
  .node ⟨.MacroInvocation, ⟨6, 5, 6, 15⟩, "dbg", 1⟩ .nil

/-- `data.to_uppercase()` of mixed.rs line 8, columns 5-23. -/
def mixedUpperNode : SNode :=
  .node ⟨.Call, ⟨8, 5, 8, 23⟩, "to_uppercase", 0⟩
    (.cons (.node ⟨.Other, ⟨8, 5, 8, 8⟩, "data", 0⟩ .nil) .nil)

/-- `dbg!(x)` of mixed.rs line 12, columns 5-11, one argument. -/
def mixedDbgNode2 : SNode :=
  .node ⟨.MacroInvocation, ⟨12, 5, 12, 11⟩, "dbg", 1⟩ .nil

/-- `println!("Value: \x7b\x7d", x)` of mixed.rs line 13, columns 5-28,
two arguments. -/
def mixedPrintlnNode : SNode :=
  .node ⟨.MacroInvocation, ⟨13, 5, 13, 28⟩, "println", 2⟩ .nil

/-- The function `process_data` of mixed.rs lines 3-9. -/
def processDataFn : SNode :=
  .node ⟨.FunctionDef, ⟨3, 1, 9, 1⟩, "process_data", 0⟩
    (.cons mixedUnwrapNode (.cons mixedDbgNode1 (.cons mixedUpperNode .nil)))

/-- The function `debug_value` of mixed.rs lines 11-14. -/
def debugValueFn : SNode :=
  .node ⟨.FunctionDef, ⟨11, 1, 14, 1⟩, "debug_value", 0⟩
    (.cons mixedDbgNode2 (.cons mixedPrintlnNode .nil))

/-- The whole syntax tree of mixed.rs: a module with the two function
definitions as children, in source order. -/
def mixedTree : SNode :=
  .node ⟨.Module, ⟨1, 1, 15, 1⟩, "mixed", 0⟩
    (.cons processDataFn (.cons debugValueFn .nil))

/-- A one-node tree holding a single `dbg!` invocation and nothing
else; no unwrap-like call occurs in it. -/
def dbgOnlyTree : SNode :=
  .node ⟨.MacroInvocation, ⟨1, 1, 1, 7⟩, "dbg", 1⟩ .nil

end Lints

namespace Lints

/-- Claim C9: the fixture evidence supplied with the repository totals
exactly 42 lines across the three source files (14 + 13 + 15). -/
theorem claim_C9 :
    with_unwrap_rs.length + with_dbg_rs.length + mixed_rs.length = 42 := by
  rfl

/-- Claim C1: the supplied source files contain both kinds of trigger
pattern: a zero-argument `.unwrap()` call inside a public (library)
function (in with-unwrap.rs, and again in mixed.rs), and a `dbg!` macro
invocation (in with-dbg.rs, and again in mixed.rs). -/
theorem claim_C1 :
    hasUnwrapInsidePubFn with_unwrap_rs = true ∧
    hasUnwrapInsidePubFn mixed_rs = true ∧
    hasDbgInvocation with_dbg_rs = true ∧
    hasDbgInvocation mixed_rs = true := by
  refine ⟨?_, ?_, ?_, ?_⟩ <;> rfl

/-! ## Helper lemmas about the scanner. -/

mutual

/-- The scan of a tree is the concatenation, over its pre-order node
listing, of the per-node violation lists. -/
theorem scanNode_flatten (rules : List Rule) (ctx : ScanContext) :
    (t : SNode) → scanNode rules ctx t =
      ((preorderNode t).map (violationsAt rules ctx)).flatten
  | .node i cs => by
      simp only [scanNode, preorderNode, List.map_cons, List.flatten_cons,
        scanForest_flatten rules ctx cs]

/-- The scan of a forest is the concatenation, over its pre-order node
listing, of the per-node violation lists. -/
theorem scanForest_flatten (rules : List Rule) (ctx : ScanContext) :
    (ts : SForest) → scanForest rules ctx ts =
      ((preorderForest ts).map (violationsAt rules ctx)).flatten
  | .nil => rfl
  | .cons t ts => by
      simp only [scanForest, preorderForest, List.map_append,
        List.flatten_append, scanNode_flatten rules ctx t,
        scanForest_flatten rules ctx ts]

end

/-! ## Claims about the engine (spec-modelled). -/

/-- Claim C2: scanning is deterministic: two invocations of scan on
identical (tree, context, registry) inputs produce identical ordered
Violation sequences — scan is a pure function of its inputs. -/
theorem claim_C2 (t t2 : SNode) (ctx ctx2 : ScanContext)
    (reg reg2 : Registry)
    (ht : t = t2) (hc : ctx = ctx2) (hr : reg = reg2) :
    scan t ctx reg = scan t2 ctx2 reg2 := by
  subst ht hc hr
  rfl

/-- Witness for claim C2 at the mixed.rs tree and the two-rule
registry. -/
theorem claim_C2_witness :
    scan mixedTree ctxMixedLib regBoth = scan mixedTree ctxMixedLib regBoth :=
  claim_C2 mixedTree mixedTree ctxMixedLib ctxMixedLib regBoth regBoth
    rfl rfl rfl

/-- Claim C3: the violation sequence of a scan is ordered exactly as a
pre-order depth-first traversal of the tree, with the per-node
violations produced by iterating the applicable rules in registration
order (violationsAt walks its rule list in order, and the applicable
rules are an order-preserving sublist of the registry's rules in
registration order). -/
theorem claim_C3 (t : SNode) (ctx : ScanContext) (reg : Registry) :
    scan t ctx reg =
      ((preorderNode t).map
        (violationsAt (reg.applicable_rules ctx) ctx)).flatten ∧
    List.Sublist (reg.applicable_rules ctx) reg.rules :=
  ⟨scanNode_flatten _ _ t, List.filter_sublist reg.rules⟩

/-- Claim C4: every Violation a scan produces carries the id of a rule
present in the registry supplied to that scan. -/
theorem claim_C4 (t : SNode) (ctx : ScanContext) (reg : Registry)
    (v : Violation) (hv : v ∈ scan t ctx reg) :
    ∃ r ∈ reg.rules, v.ruleId = r.id := by
  simp only [scan] at hv
  rw [scanNode_flatten, List.mem_flatten] at hv
  obtain ⟨l, hl, hvl⟩ := hv
  rw [List.mem_map] at hl
  obtain ⟨n, _, rfl⟩ := hl
  rw [violationsAt, List.mem_filterMap] at hvl
  obtain ⟨r, hr, hres⟩ := hvl
  have hmem : r ∈ reg.rules := (List.filter_sublist reg.rules).mem hr
  refine ⟨r, hmem, ?_⟩
  by_cases hm : r.matcher.matches n
  · rw [if_pos hm] at hres
    cases hres
    rfl
  · rw [if_neg hm] at hres
    cases hres

/-- Witness for claim C4: the dbg violation reported on mixed.rs line 6
names a rule of the two-rule registry. -/
theorem claim_C4_witness :
    ∃ r ∈ regBoth.rules,
      (Violation.mk "no-dbg-macro" .Warning
        (Matcher.renderMessage (.macroInv "dbg") "dbg")
        ⟨6, 5, 6, 15⟩ "mixed.rs").ruleId = r.id :=
  claim_C4 mixedTree ctxMixedLib regBoth _ (by decide)

/-- When no rule of the list carries the given id, the per-node
violation list holds no violation with that id. -/
theorem countP_violationsAt_of_not_mem (rules : List Rule)
    (ctx : ScanContext) (n : SNode) (rid : String)
    (h : rid ∉ rules.map Rule.id) :
    (violationsAt rules ctx n).countP (fun v => v.ruleId == rid) = 0 := by
  induction rules with
  | nil => rfl
  | cons q rest ih =>
    rw [List.map_cons] at h
    have hq : q.id ≠ rid := fun e => h (by rw [← e]; exact List.mem_cons_self _ _)
    have hrest : rid ∉ rest.map Rule.id := fun e => h (List.mem_cons_of_mem _ e)
    rw [violationsAt, List.filterMap_cons]
    by_cases hm : q.matcher.matches n
    · rw [if_pos hm, List.countP_cons]
      have hid : ((mkViolation q ctx n.info).ruleId == rid) = false :=
        beq_eq_false_iff_ne.mpr hq
      rw [hid]
      have h0 := ih hrest
      rw [violationsAt] at h0
      simp [h0]
    · rw [if_neg hm]
      have h0 := ih hrest
      rw [violationsAt] at h0
      exact h0

/-- With pairwise-distinct rule ids, the violations a single node
contributes for the rule r number one when r's matcher accepts the node
and zero otherwise. -/
theorem countP_violationsAt (rules : List Rule) (ctx : ScanContext)
    (n : SNode) (r : Rule) (hmem : r ∈ rules)
    (hnd : (rules.map Rule.id).Nodup) :
    (violationsAt rules ctx n).countP (fun v => v.ruleId == r.id) =
      if r.matcher.matches n then 1 else 0 := by
  induction rules with
  | nil => cases hmem
  | cons q rest ih =>
    rw [List.map_cons, List.nodup_cons] at hnd
    obtain ⟨hq, hrest⟩ := hnd
    rw [violationsAt, List.filterMap_cons]
    rcases List.mem_cons.mp hmem with h | h
    · subst h
      have h0 := countP_violationsAt_of_not_mem rest ctx n r.id hq
      rw [violationsAt] at h0
      by_cases hm : r.matcher.matches n
      · rw [if_pos hm, if_pos hm, List.countP_cons, h0]
        simp [mkViolation]
      · rw [if_neg hm, if_neg hm]
        exact h0
    · have hne : ((mkViolation q ctx n.info).ruleId == r.id) = false := by
        refine beq_eq_false_iff_ne.mpr ?_
        show q.id ≠ r.id
        exact fun e => hq (e.symm ▸ List.mem_map_of_mem Rule.id h)
      have h0 := ih h hrest
      rw [violationsAt] at h0
      by_cases hm : q.matcher.matches n
      · rw [if_pos hm, List.countP_cons, hne, h0]
        simp
      · rw [if_neg hm]
        exact h0

/-- Summing the per-node counts over any node list: with distinct rule
ids, the violations for rule r number exactly the nodes its matcher
accepts. -/
theorem countP_flatten_violations (rules : List Rule) (ctx : ScanContext)
    (r : Rule) (hmem : r ∈ rules) (hnd : (rules.map Rule.id).Nodup) :
    (ns : List SNode) →
      ((ns.map (violationsAt rules ctx)).flatten).countP
          (fun v => v.ruleId == r.id) =
        ns.countP (fun n => r.matcher.matches n)
  | [] => rfl
  | n :: ns => by
      rw [List.map_cons, List.flatten_cons, List.countP_append,
        List.countP_cons, countP_violationsAt rules ctx n r hmem hnd,
        countP_flatten_violations rules ctx r hmem hnd ns]
      exact Nat.add_comm _ _

/-- Claim C5: for every tree, the scan reports exactly as many
violations for a rule as there are matchable trigger nodes in the whole
tree: the count of violations carrying the rule's id equals the count of
pre-order-reachable nodes its matcher accepts, however deeply nested
(rule ids assumed pairwise distinct, as registration enforces). -/
theorem claim_C5 (t : SNode) (ctx : ScanContext) (reg : Registry)
    (r : Rule) (hr : r ∈ reg.applicable_rules ctx)
    (hN : (reg.rules.map Rule.id).Nodup) :
    (scan t ctx reg).countP (fun v => v.ruleId == r.id) =
      (preorderNode t).countP (fun n => r.matcher.matches n) := by
  have hsub : List.Sublist ((reg.applicable_rules ctx).map Rule.id)
      (reg.rules.map Rule.id) :=
    (List.filter_sublist reg.rules).map Rule.id
  have hnd := hN.sublist hsub
  simp only [scan]
  rw [scanNode_flatten]
  exact countP_flatten_violations _ ctx r hr hnd (preorderNode t)

/-- Witness for claim C5: mixed.rs holds two dbg trigger nodes at
different nesting depths and the scan reports exactly two dbg
violations. -/
theorem claim_C5_witness :
    dbgRule ∈ regBoth.applicable_rules ctxMixedLib ∧
    (regBoth.rules.map Rule.id).Nodup ∧
    (preorderNode mixedTree).countP
        (fun n => dbgRule.matcher.matches n) = 2 ∧
    (scan mixedTree ctxMixedLib regBoth).countP
        (fun v => v.ruleId == dbgRule.id) =
      (preorderNode mixedTree).countP
        (fun n => dbgRule.matcher.matches n) :=
  ⟨by decide, by decide, by decide,
    claim_C5 mixedTree ctxMixedLib regBoth dbgRule (by decide) (by decide)⟩

/-- Claim C6: scanning the parse_number snippet (with-unwrap.rs lines
3-5, containing `s.parse::<i32>().unwrap()`) in a Library-target context
with the unwrap-like rule (method name "unwrap", argument count 0)
enabled yields exactly one Violation; its rule id is the unwrap rule's
id and its span (line 4, columns 5-29, the `.unwrap()` method-call
expression) covers the `.unwrap()` tokens (columns 21-29). -/
theorem claim_C6 :
    (scan parseNumberFn ctxUnwrapLib regUnwrap).length = 1 ∧
    (scan parseNumberFn ctxUnwrapLib regUnwrap).map Violation.ruleId =
      [unwrapRule.id] ∧
    (scan parseNumberFn ctxUnwrapLib regUnwrap).map Violation.span =
      [Span.mk 4 5 4 29] ∧
    (scan parseNumberFn ctxUnwrapLib regUnwrap).map
      (fun v => spanCovers v.span unwrapTokenSpan) = [true] := by
  refine ⟨?_, ?_, ?_, ?_⟩ <;> rfl

/-- Counterexample to claim C7 as stated: on a tree holding only one
dbg invocation, removing the unwrap rule from the two-rule registry
leaves the scan's violation sequence unchanged, so the rescan's
violation set is NOT a strict subset of the original one. -/
theorem claim_C7_counterexample :
    ¬ ((scan dbgOnlyTree ctxMixedLib (regBoth.removeRule "no-unwrap-in-lib")) ⊆
        (scan dbgOnlyTree ctxMixedLib regBoth) ∧
      ¬ ((scan dbgOnlyTree ctxMixedLib regBoth) ⊆
        (scan dbgOnlyTree ctxMixedLib (regBoth.removeRule "no-unwrap-in-lib")))) := by
  intro hcl
  refine hcl.2 ?_
  have he : scan dbgOnlyTree ctxMixedLib regBoth =
      scan dbgOnlyTree ctxMixedLib (regBoth.removeRule "no-unwrap-in-lib") := by
    decide
  rw [he]
  exact List.Subset.refl _

/-- The violation constructed for a rule carries that rule's id. -/
theorem mkViolation_ruleId (r : Rule) (ctx : ScanContext) (i : NodeInfo) :
    (mkViolation r ctx i).ruleId = r.id := rfl

/-- Removing the rules of a given id filters the per-node violation list
down to the violations of the other rules. -/
theorem violationsAt_removeId (rules : List Rule) (ctx : ScanContext)
    (rid : String) (n : SNode) :
    violationsAt (rules.filter fun r => !(r.id == rid)) ctx n =
      (violationsAt rules ctx n).filter fun v => !(v.ruleId == rid) := by
  induction rules with
  | nil => rfl
  | cons q rest ih =>
    simp only [violationsAt] at ih ⊢
    by_cases hm : q.matcher.matches n <;> by_cases hq : q.id = rid <;>
      simp [List.filter_cons, List.filterMap_cons, hm, hq, mkViolation_ruleId, ih]

/-- Filtering applicable rules commutes with removing a rule id. -/
theorem applicable_rules_removeRule (reg : Registry) (ctx : ScanContext)
    (rid : String) :
    (reg.removeRule rid).applicable_rules ctx =
      (reg.applicable_rules ctx).filter fun r => !(r.id == rid) := by
  simp only [Registry.removeRule, Registry.applicable_rules]
  rw [List.filter_filter, List.filter_filter]
  refine List.filter_congr ?_
  intro a _
  exact Bool.and_comm _ _

/-- Over any node list, scanning with the rules of one id removed equals
filtering that id's violations out of the original scan. -/
theorem flatten_violations_removeId (rules : List Rule)
    (ctx : ScanContext) (rid : String) :
    (ns : List SNode) →
      ((ns.map (violationsAt (rules.filter fun r => !(r.id == rid)) ctx)).flatten) =
        ((ns.map (violationsAt rules ctx)).flatten).filter
          (fun v => !(v.ruleId == rid))
  | [] => rfl
  | n :: ns => by
      rw [List.map_cons, List.map_cons, List.flatten_cons, List.flatten_cons,
        List.filter_append, violationsAt_removeId rules ctx rid n,
        flatten_violations_removeId rules ctx rid ns]

/-- Claim C7, amended: removing one rule (by its id) from the registry
and rescanning yields exactly the original violation sequence with that
rule's violations filtered out — a subset of the original (strict only
when the removed rule had matched at least once), with every other
rule's violations unchanged, order included. -/
theorem claim_C7_amended (t : SNode) (ctx : ScanContext) (reg : Registry)
    (rid : String) :
    scan t ctx (reg.removeRule rid) =
      (scan t ctx reg).filter (fun v => !(v.ruleId == rid)) ∧
    List.Sublist (scan t ctx (reg.removeRule rid)) (scan t ctx reg) := by
  have he : scan t ctx (reg.removeRule rid) =
      (scan t ctx reg).filter (fun v => !(v.ruleId == rid)) := by
    simp only [scan]
    rw [scanNode_flatten, scanNode_flatten, applicable_rules_removeRule]
    exact flatten_violations_removeId (reg.applicable_rules ctx) ctx rid
      (preorderNode t)
  refine ⟨he, ?_⟩
  rw [he]
  exact List.filter_sublist _

/-- Claim C8: registering a rule whose id is already present in the
registry fails with the DuplicateRuleId error; such configuration errors
surface at registry construction, before any scan uses the registry. -/
theorem claim_C8 (reg : Registry) (r : Rule)
    (h : ∃ q ∈ reg.rules, q.id = r.id) :
    reg.register r = .error .DuplicateRuleId := by
  have hb : (reg.rules.any fun q => q.id == r.id) = true := by
    rw [List.any_eq_true]
    obtain ⟨q, hq, hid⟩ := h
    exact ⟨q, hq, beq_iff_eq.mpr hid⟩
  unfold Registry.register
  rw [if_pos hb]

/-- Witness for claim C8: re-registering the unwrap rule on the two-rule
registry reports the duplicate id. -/
theorem claim_C8_witness :
    (∃ q ∈ regBoth.rules, q.id = unwrapRule.id) ∧
    regBoth.register unwrapRule = .error .DuplicateRuleId :=
  ⟨⟨unwrapRule, by decide, rfl⟩,
    claim_C8 regBoth unwrapRule ⟨unwrapRule, by decide, rfl⟩⟩

/-- Claim C10: mixed.rs contains exactly one zero-argument `.unwrap()`
call (line 4) and exactly two `dbg!` invocations (lines 6 and 12, one
argument each in the parsed tree), in that source order; scanning the
mixed.rs tree with both rules enabled reports exactly three violations
ordered unwrap, dbg, dbg, at lines 4, 6 and 12. -/
theorem claim_C10 :
    (mixed_rs.map (countOccurs ".unwrap()")).sum = 1 ∧
    countOccurs ".unwrap()" (mixed_rs.getD 3 "") = 1 ∧
    (mixed_rs.map (countOccurs "dbg!(")).sum = 2 ∧
    countOccurs "dbg!(" (mixed_rs.getD 5 "") = 1 ∧
    countOccurs "dbg!(" (mixed_rs.getD 11 "") = 1 ∧
    mixedDbgNode1.info.argCount = 1 ∧
    mixedDbgNode2.info.argCount = 1 ∧
    (scan mixedTree ctxMixedLib regBoth).length = 3 ∧
    (scan mixedTree ctxMixedLib regBoth).map Violation.ruleId =
      [unwrapRule.id, dbgRule.id, dbgRule.id] ∧
    (scan mixedTree ctxMixedLib regBoth).map
      (fun v => v.span.startLine) = [4, 6, 12] := by
  refine ⟨?_, ?_, ?_, ?_, ?_, ?_, ?_, ?_, ?_, ?_⟩ <;> rfl

end Lints
